import Mathlib

/-!
Verification of the event-request review workflow of the sep-portal
repository.  The definitions below are a shallow embedding of the
TypeScript sources:

* `src/lib/event-request-config` (statuses, ordered review steps),
* `src/lib/event-request` (`normalizeStatus`, `unwrapRelation`,
  `mapEventRequestRow`),
* `src/app/actions/event-requests.ts` (`updateEventRequestStatusAction`,
  `reviewEventRequestAction`, `FEEDBACK_COLUMN_BY_STEP`).

Statuses and review steps are modelled as `String`s, which is what the
JavaScript runtime actually passes around (the review action writes the
string "APPROVED" even though the declared `EventRequestStatus` union
has no such member, so an enum-typed model could not express the
behaviour).  Database `unknown` values are modelled by `StoredValue`.
The review action performs two storage round trips (a select, then an
update); the embedding keeps them as two phases, `reviewCheckPhase` and
`applyReviewWrite`, composed by `reviewEventRequestAction`.
-/

namespace SepPortal

/-- A value read back from a database column: either a JavaScript string
or some non-string value (null, number, object, ...). -/
inductive StoredValue where
  | str (s : String)
  | nonString
deriving DecidableEq, Repr

/-- Coercion of a nullable text column into a `StoredValue` (SQL null is
not a string at the JavaScript level). -/
def toStored : Option String → StoredValue
  | some s => StoredValue.str s
  | none => StoredValue.nonString

/-- The constant `EVENT_REQUEST_STATUSES` from `src/lib/event-request-config`. -/
def EVENT_REQUEST_STATUSES : List String :=
  ["DRAFT", "PENDING", "REJECTED", "OPEN"]

/-- JavaScript `String.prototype.toUpperCase` on one character,
restricted to the ASCII range the status strings live in. -/
def jsCharToUpper (c : Char) : Char :=
  if 'a' ≤ c ∧ c ≤ 'z' then Char.ofNat (c.toNat - 32) else c

/-- JavaScript `String.prototype.toUpperCase` (ASCII model). -/
def jsToUpperCase (s : String) : String :=
  String.mk (s.data.map jsCharToUpper)

/-- The ASCII whitespace characters removed by JavaScript
`String.prototype.trim`. -/
def jsIsWhitespace (c : Char) : Bool :=
  c = ' ' ∨ c = '\t' ∨ c = '\n' ∨ c = '\r' ∨ c.toNat = 11 ∨ c.toNat = 12

/-- JavaScript `String.prototype.trim` (ASCII-whitespace model): drop
whitespace from both ends. -/
def jsTrim (s : String) : String :=
  String.mk (((s.data.dropWhile jsIsWhitespace).reverse.dropWhile jsIsWhitespace).reverse)

/-- One entry of the ordered review-step sequence. -/
structure ReviewStepEntry where
  key : String
  label : String
deriving DecidableEq, Repr

/-- The constant `EVENT_REQUEST_REVIEW_STEPS` from `src/lib/event-request-config`: the
ordered review-step sequence as it appears in the source, including the
fourth entry RESOURCE_CONFIRMING. -/
def EVENT_REQUEST_REVIEW_STEPS : List ReviewStepEntry :=
  [⟨"FINANCIAL_MANAGER", "Financial Manager"⟩,
   ⟨"ADMINISTRATION_MANAGER", "Administration Manager"⟩,
   ⟨"CUSTOMER_MEETING", "Customer Meeting"⟩,
   ⟨"RESOURCE_CONFIRMING", "Resource Confirming"⟩]

/-- The keys of the ordered review-step sequence. -/
def stepKeys : List String := EVENT_REQUEST_REVIEW_STEPS.map (fun e => e.key)

/-- The function `normalizeStatus` from `src/lib/event-request`: uppercase a string
and keep it when it is one of the four recognised statuses, otherwise
fall back to DRAFT; every non-string also falls back to DRAFT. -/
def normalizeStatus : StoredValue → String
  | StoredValue.nonString => "DRAFT"
  | StoredValue.str s =>
    let upper := jsToUpperCase s
    if upper = "DRAFT" ∨ upper = "PENDING" ∨ upper = "REJECTED" ∨ upper = "OPEN" then
      upper
    else
      "DRAFT"

/-- Modelled from the spec: `normalizeReviewStep` is imported by
`src/app/actions/event-requests.ts` from the shared event-request
helpers, but its definition is not among the provided sources.  The
spec's data model states that `review_step` is one of the step keys or
null; mirroring the sibling `normalizeStatus`, a stored value that is
one of the recognised step keys is surfaced unchanged and anything else
is surfaced as null. -/
def normalizeReviewStep : StoredValue → Option String
  | StoredValue.nonString => none
  | StoredValue.str s => if s ∈ stepKeys then some s else none

/-- The columns of an `event_request` row that the review workflow reads
or writes. -/
structure EventRequestRow where
  status : String
  review_step : Option String
  scso_feedback : Option String
  financial_manager_feedback : Option String
  administration_manager_feedback : Option String
  customer_meeting_feedback : Option String
deriving DecidableEq, Repr

/-- The constant `FEEDBACK_COLUMN_BY_STEP` from `src/app/actions/event-requests.ts`.
The TypeScript object literal has entries for exactly three steps, so
the runtime lookup yields `undefined` for any other step key (despite
the declared type `Record` over all step keys); the embedding returns
`none` there. -/
def FEEDBACK_COLUMN_BY_STEP : String → Option String
  | "FINANCIAL_MANAGER" => some "financial_manager_feedback"
  | "ADMINISTRATION_MANAGER" => some "administration_manager_feedback"
  | "CUSTOMER_MEETING" => some "customer_meeting_feedback"
  | _ => none

/-- The feedback coercion used by both mutating actions:
`typeof feedback === "string" ? feedback.trim() || null : null`.  A
missing feedback option or a string that trims to the empty string is
stored as null. -/
def trimFeedback : Option String → Option String
  | none => none
  | some s => if jsTrim s = "" then none else some (jsTrim s)

/-- JavaScript `Array.prototype.findIndex` over the review-step list,
with `none` standing for the sentinel -1. -/
def findStepIndex (reviewStep : String) : List ReviewStepEntry → Option Nat
  | [] => none
  | e :: rest =>
    if e.key = reviewStep then some 0
    else (findStepIndex reviewStep rest).map (fun i => i + 1)

/-- Outcome of the select-and-validate phase of
`reviewEventRequestAction` (everything before the update round trip). -/
inductive CheckOutcome where
  | failure (err : String)
  | proceed (statusUpdate : String) (nextStep : Option String)
      (feedbackColumn : Option String) (feedbackValue : Option String)
deriving DecidableEq, Repr

/-- The first phase of `reviewEventRequestAction`
(`src/app/actions/event-requests.ts`, lines 146-195): normalise the
fetched state, check the PENDING and step-match preconditions, locate
the step in the ordered sequence and compute the update tuple. -/
def reviewCheckPhase (data : EventRequestRow) (reviewStep : String)
    (decision : String) (feedback : Option String) : CheckOutcome :=
  let currentStatus := normalizeStatus (StoredValue.str data.status)
  let currentReviewStep := normalizeReviewStep (toStored data.review_step)
  if currentStatus ≠ "PENDING" then
    CheckOutcome.failure "Event request is not pending review."
  else if currentReviewStep ≠ some reviewStep then
    CheckOutcome.failure "Review step mismatch. Refresh and try again."
  else
    match findStepIndex reviewStep EVENT_REQUEST_REVIEW_STEPS with
    | none => CheckOutcome.failure "Invalid review step provided."
    | some stepIndex =>
      let su : String × Option String :=
        if decision = "REJECT" then
          ("REJECTED", none)
        else if stepIndex + 1 < EVENT_REQUEST_REVIEW_STEPS.length then
          ("PENDING", (EVENT_REQUEST_REVIEW_STEPS.get? (stepIndex + 1)).map (fun e => e.key))
        else
          ("APPROVED", none)
      CheckOutcome.proceed su.1 su.2 (FEEDBACK_COLUMN_BY_STEP reviewStep)
        (trimFeedback feedback)

/-- The update round trip of `reviewEventRequestAction`: write the new
status, the new review step and the feedback value into the feedback
column selected by `FEEDBACK_COLUMN_BY_STEP`.  When no recognised
feedback column was selected (the lookup yielded `undefined`), none of
the four feedback columns receives the value. -/
def applyReviewWrite (row : EventRequestRow) (statusUpdate : String)
    (nextStep : Option String) (feedbackColumn : Option String)
    (feedbackValue : Option String) : EventRequestRow :=
  let base := { row with status := statusUpdate, review_step := nextStep }
  match feedbackColumn with
  | some "financial_manager_feedback" =>
      { base with financial_manager_feedback := feedbackValue }
  | some "administration_manager_feedback" =>
      { base with administration_manager_feedback := feedbackValue }
  | some "customer_meeting_feedback" =>
      { base with customer_meeting_feedback := feedbackValue }
  | some "scso_feedback" => { base with scso_feedback := feedbackValue }
  | _ => base

/-- Result of a mutating server action: the returned success flag and
error message, plus the row as persisted by the update round trip
(`none` when the action returned before issuing any update). -/
structure ActionOutcome where
  success : Bool
  error : Option String
  write : Option EventRequestRow
deriving DecidableEq, Repr

/-- The server action `reviewEventRequestAction` from `src/app/actions/event-requests.ts`:
fetch the row (modelled by the `Option EventRequestRow` argument), run
the validation phase, and on success issue the single update. -/
def reviewEventRequestAction (row : Option EventRequestRow)
    (reviewStep : String) (decision : String) (feedback : Option String) :
    ActionOutcome :=
  match row with
  | none => ⟨false, some "Event request not found.", none⟩
  | some data =>
    match reviewCheckPhase data reviewStep decision feedback with
    | CheckOutcome.failure err => ⟨false, some err, none⟩
    | CheckOutcome.proceed statusUpdate nextStep feedbackColumn feedbackValue =>
      ⟨true, none,
        some (applyReviewWrite data statusUpdate nextStep feedbackColumn feedbackValue)⟩

/-- The server action `updateEventRequestStatusAction` from
`src/app/actions/event-requests.ts`: unconditionally update the row with
the requested status; a PENDING target additionally sets the review step
to FINANCIAL_MANAGER, every other target clears it; both branches write
the trimmed feedback into `scso_feedback`.  The action never reads the
current row, so the embedding is a total function of the prior row. -/
def updateEventRequestStatusAction (row : EventRequestRow)
    (nextStatus : String) (feedback : Option String) : EventRequestRow :=
  let fb := trimFeedback feedback
  if nextStatus = "PENDING" then
    { row with status := "PENDING", review_step := some "FINANCIAL_MANAGER",
               scso_feedback := fb }
  else
    { row with status := nextStatus, review_step := none, scso_feedback := fb }

/-- A relation value returned by the database client for a joined
relation: null/absent, a single summary object (identified here by its
id), or an array of summary objects. -/
inductive RelationValue where
  | null
  | obj (id : Nat)
  | arr (ids : List Nat)
deriving DecidableEq, Repr

/-- The function `unwrapRelation` from `src/lib/event-request`: falsy becomes null,
an array is collapsed to its first element or null, anything else is
passed through. -/
def unwrapRelation : RelationValue → Option Nat
  | RelationValue.null => none
  | RelationValue.arr ids => ids.head?
  | RelationValue.obj i => some i

/-- The raw selected row handed to `mapEventRequestRow`, with the
columns it reads; `status` is untyped data from the database. -/
structure RawEventRequestRow where
  id : Nat
  client_id : Nat
  client : RelationValue
  event_type : String
  status : StoredValue
  start_time : String
  finish_time : String
  location : Option String
  preferences : Option (List String)
  note : Option String
  submitter_id : String
  submitter : RelationValue
  created_at : String
deriving DecidableEq, Repr

/-- The mapped read model produced by `mapEventRequestRow`. -/
structure EventRequestRecord where
  id : Nat
  client_id : Nat
  client : Option Nat
  event_type : String
  status : String
  start_time : String
  finish_time : String
  location : Option String
  preferences : Option (List String)
  note : Option String
  submitter_id : String
  submitter : Option Nat
  created_at : String
deriving DecidableEq, Repr

/-- The function `mapEventRequestRow` from `src/lib/event-request`: unwrap the two
joined relations and normalise the status; the remaining columns are
copied through (nullable ones defaulted to null). -/
def mapEventRequestRow (row : RawEventRequestRow) : EventRequestRecord :=
  { id := row.id
    client_id := row.client_id
    client := unwrapRelation row.client
    event_type := row.event_type
    status := normalizeStatus row.status
    start_time := row.start_time
    finish_time := row.finish_time
    location := row.location
    preferences := row.preferences
    note := row.note
    submitter_id := row.submitter_id
    submitter := unwrapRelation row.submitter
    created_at := row.created_at }

/-- The row-mapping step of `listEventRequestsAction`
(`src/app/actions/event-requests.ts`, line 61): every fetched row passes
through `mapEventRequestRow`. -/
def listEventRequestsData (rows : List RawEventRequestRow) :
    List EventRequestRecord :=
  rows.map mapEventRequestRow

/-- The three step keys named by the specification's data-model
invariant (the spec's ordered sequence ends at CUSTOMER_MEETING). -/
def specStepKeys : List String :=
  ["FINANCIAL_MANAGER", "ADMINISTRATION_MANAGER", "CUSTOMER_MEETING"]

/-- The specification's data-model invariant on a persisted row:
PENDING exactly when the review step is one of the three spec step keys,
and the three terminal/initial statuses carry a null review step. -/
def reviewInvariant (row : EventRequestRow) : Prop :=
  (row.status = "PENDING" ↔ ∃ k ∈ specStepKeys, row.review_step = some k)
  ∧ ((row.status = "DRAFT" ∨ row.status = "REJECTED" ∨ row.status = "APPROVED")
      → row.review_step = none)

end SepPortal

namespace SepPortal

/-- Any value surfaced by `normalizeReviewStep` as a step is one of the
recognised step keys. -/
theorem normalizeReviewStep_valid (v : StoredValue) (k : String)
    (h : normalizeReviewStep v = some k) : k ∈ stepKeys := by
  cases v with
  | nonString => exact Option.noConfusion h
  | str s =>
    by_cases hs : s ∈ stepKeys
    · have hsk : some s = some k := by simpa [normalizeReviewStep, hs] using h
      exact Option.some.inj hsk ▸ hs
    · simp [normalizeReviewStep, hs] at h

/-- When the normalised status is not PENDING, the validation phase
fails with the not-pending error. -/
theorem reviewCheckPhase_not_pending (data : EventRequestRow)
    (step decision : String) (fb : Option String)
    (h : normalizeStatus (StoredValue.str data.status) ≠ "PENDING") :
    reviewCheckPhase data step decision fb =
      CheckOutcome.failure "Event request is not pending review." := by
  simp [reviewCheckPhase, h]

/-- When the normalised status is PENDING but the normalised persisted
step differs from the step argument, the validation phase fails with the
step-mismatch error. -/
theorem reviewCheckPhase_mismatch (data : EventRequestRow)
    (step decision : String) (fb : Option String)
    (hp : normalizeStatus (StoredValue.str data.status) = "PENDING")
    (h : normalizeReviewStep (toStored data.review_step) ≠ some step) :
    reviewCheckPhase data step decision fb =
      CheckOutcome.failure "Review step mismatch. Refresh and try again." := by
  simp [reviewCheckPhase, hp, h]

/-- A failing validation phase makes the action return that failure and
issue no update. -/
theorem reviewEventRequestAction_of_failure (data : EventRequestRow)
    (step decision : String) (fb : Option String) (err : String)
    (h : reviewCheckPhase data step decision fb = CheckOutcome.failure err) :
    reviewEventRequestAction (some data) step decision fb =
      ⟨false, some err, none⟩ := by
  simp [reviewEventRequestAction, h]

/-- The successor of a step in the ordered review-step sequence, exactly
as `reviewEventRequestAction` computes it (position via find-index, then
the entry one position later). -/
def nextStepOf (step : String) : Option String :=
  match findStepIndex step EVENT_REQUEST_REVIEW_STEPS with
  | none => none
  | some i => (EVENT_REQUEST_REVIEW_STEPS.get? (i + 1)).map (fun e => e.key)

end SepPortal

namespace SepPortal

/-- C1: approving a PENDING request at CUSTOMER_MEETING does not yield
APPROVED with a null review step; because the ordered step sequence in
`src/lib/event-request-config` contains a fourth entry
RESOURCE_CONFIRMING after CUSTOMER_MEETING, the action succeeds but
writes status PENDING and review step RESOURCE_CONFIRMING, contradicting
both the claim and the repository's own integration test (which expects
APPROVED and a null step after this approval). -/
theorem approve_at_customer_meeting_yields_resource_confirming :
    reviewEventRequestAction
        (some ⟨"PENDING", some "CUSTOMER_MEETING", none, none, none, none⟩)
        "CUSTOMER_MEETING" "APPROVE" none =
      ⟨true, none,
        some ⟨"PENDING", some "RESOURCE_CONFIRMING", none, none, none, none⟩⟩
    ∧ stepKeys.getLast? = some "RESOURCE_CONFIRMING" := by decide

/-- C3: rejecting at the step RESOURCE_CONFIRMING (a recognised member
of the ordered step sequence, reachable by approving at
CUSTOMER_MEETING) does set status REJECTED and a null review step, but
no feedback column associated with that step exists:
`FEEDBACK_COLUMN_BY_STEP` has entries for only three steps even though
its declared type requires one per step, so the supplied feedback text
is written to no step feedback column. -/
theorem reject_at_resource_confirming_loses_feedback :
    "RESOURCE_CONFIRMING" ∈ stepKeys
    ∧ FEEDBACK_COLUMN_BY_STEP "RESOURCE_CONFIRMING" = none
    ∧ reviewEventRequestAction
        (some ⟨"PENDING", some "RESOURCE_CONFIRMING", none, none, none, none⟩)
        "RESOURCE_CONFIRMING" "REJECT" (some "needs rework") =
      ⟨true, none, some ⟨"REJECTED", none, none, none, none, none⟩⟩ := by decide

/-- C6: the review workflow writes a state violating the specification's
data-model invariant: approving a PENDING request at CUSTOMER_MEETING
persists status PENDING with review step RESOURCE_CONFIRMING, which is
not one of the three step keys the invariant allows for a PENDING
request. -/
theorem review_write_violates_spec_invariant :
    reviewEventRequestAction
        (some ⟨"PENDING", some "CUSTOMER_MEETING", none, none, none, none⟩)
        "CUSTOMER_MEETING" "APPROVE" none =
      ⟨true, none,
        some ⟨"PENDING", some "RESOURCE_CONFIRMING", none, none, none, none⟩⟩
    ∧ ¬ reviewInvariant ⟨"PENDING", some "RESOURCE_CONFIRMING", none, none, none, none⟩ := by
  refine ⟨by decide, ?_⟩
  intro h
  rcases h.1.mp rfl with ⟨k, hk, he⟩
  have hke : k = "RESOURCE_CONFIRMING" := Option.some.inj he.symm
  subst hke
  exact absurd hk (by decide)

/-- C7: `updateEventRequestStatusAction` with target status PENDING (the
submit-for-review transition) sets status PENDING, review step
FINANCIAL_MANAGER and stores the trimmed feedback in `scso_feedback` —
for every prior row, with no re-verification that the persisted status
was DRAFT (the action never reads the current row). -/
theorem submit_for_review_sets_pending_financial_manager
    (row : EventRequestRow) (fb : Option String) :
    updateEventRequestStatusAction row "PENDING" fb =
      { row with status := "PENDING", review_step := some "FINANCIAL_MANAGER",
                 scso_feedback := trimFeedback fb } := rfl

/-- The read-read-write-write interleaving of two review calls on the
same persisted row: both select phases observe the same initial row;
each check that passes then issues its update, the second update after
the first.  Returns both action results and the final persisted row. -/
def interleavedReviews (row : EventRequestRow)
    (stepA decisionA : String) (fbA : Option String)
    (stepB decisionB : String) (fbB : Option String) :
    ActionOutcome × ActionOutcome × EventRequestRow :=
  match reviewCheckPhase row stepA decisionA fbA,
        reviewCheckPhase row stepB decisionB fbB with
  | CheckOutcome.failure ea, CheckOutcome.failure eb =>
      (⟨false, some ea, none⟩, ⟨false, some eb, none⟩, row)
  | CheckOutcome.failure ea, CheckOutcome.proceed sb nb cb vb =>
      let w := applyReviewWrite row sb nb cb vb
      (⟨false, some ea, none⟩, ⟨true, none, some w⟩, w)
  | CheckOutcome.proceed sa na ca va, CheckOutcome.failure eb =>
      let w := applyReviewWrite row sa na ca va
      (⟨true, none, some w⟩, ⟨false, some eb, none⟩, w)
  | CheckOutcome.proceed sa na ca va, CheckOutcome.proceed sb nb cb vb =>
      let wa := applyReviewWrite row sa na ca va
      let wb := applyReviewWrite wa sb nb cb vb
      (⟨true, none, some wa⟩, ⟨true, none, some wb⟩, wb)

/-- C10: because the precondition check and the update of
`reviewEventRequestAction` are two separate storage operations, the
interleaving in which both concurrent calls read before either writes
lets both calls succeed, and the second write silently overwrites the
first call's feedback — the claim that one of them must observe the
step-mismatch error fails.  Only under sequential execution does the
second call observe the step-mismatch failure. -/
theorem concurrent_reviews_both_succeed_lost_update :
    ((interleavedReviews ⟨"PENDING", some "FINANCIAL_MANAGER", none, none, none, none⟩
        "FINANCIAL_MANAGER" "APPROVE" (some "first reviewer")
        "FINANCIAL_MANAGER" "APPROVE" (some "second reviewer")).1.success = true
      ∧ (interleavedReviews ⟨"PENDING", some "FINANCIAL_MANAGER", none, none, none, none⟩
          "FINANCIAL_MANAGER" "APPROVE" (some "first reviewer")
          "FINANCIAL_MANAGER" "APPROVE" (some "second reviewer")).2.1.success = true
      ∧ (interleavedReviews ⟨"PENDING", some "FINANCIAL_MANAGER", none, none, none, none⟩
          "FINANCIAL_MANAGER" "APPROVE" (some "first reviewer")
          "FINANCIAL_MANAGER" "APPROVE" (some "second reviewer")).2.2.financial_manager_feedback
        = some "second reviewer")
    ∧ reviewEventRequestAction
        (some (applyReviewWrite ⟨"PENDING", some "FINANCIAL_MANAGER", none, none, none, none⟩
          "PENDING" (some "ADMINISTRATION_MANAGER") (some "financial_manager_feedback")
          (some "first reviewer")))
        "FINANCIAL_MANAGER" "APPROVE" (some "second reviewer") =
      ⟨false, some "Review step mismatch. Refresh and try again.", none⟩ := by decide

end SepPortal

namespace SepPortal

/-- C2: for every persisted row that is PENDING at a step that has a
successor in the ordered step sequence, approving at that step succeeds
and writes status PENDING with the review step advanced to the
successor; in particular approving at FINANCIAL_MANAGER advances to
ADMINISTRATION_MANAGER. -/
theorem review_approve_with_successor_advances
    (row : EventRequestRow) (step next : String) (fb : Option String)
    (hstatus : row.status = "PENDING")
    (hstep : row.review_step = some step)
    (hnext : nextStepOf step = some next) :
    ∃ w, reviewEventRequestAction (some row) step "APPROVE" fb = ⟨true, none, some w⟩
      ∧ w.status = "PENDING" ∧ w.review_step = some next := by
  obtain ⟨rst, rrs, f1, f2, f3, f4⟩ := row
  dsimp only at hstatus hstep
  subst hstatus; subst hstep
  by_cases h1 : step = "FINANCIAL_MANAGER"
  · subst h1
    have h0 : nextStepOf "FINANCIAL_MANAGER" = some "ADMINISTRATION_MANAGER" := by decide
    rw [h0] at hnext
    have hn : next = "ADMINISTRATION_MANAGER" := (Option.some.inj hnext).symm
    subst hn
    exact ⟨_, rfl, rfl, rfl⟩
  by_cases h2 : step = "ADMINISTRATION_MANAGER"
  · subst h2
    have h0 : nextStepOf "ADMINISTRATION_MANAGER" = some "CUSTOMER_MEETING" := by decide
    rw [h0] at hnext
    have hn : next = "CUSTOMER_MEETING" := (Option.some.inj hnext).symm
    subst hn
    exact ⟨_, rfl, rfl, rfl⟩
  by_cases h3 : step = "CUSTOMER_MEETING"
  · subst h3
    have h0 : nextStepOf "CUSTOMER_MEETING" = some "RESOURCE_CONFIRMING" := by decide
    rw [h0] at hnext
    have hn : next = "RESOURCE_CONFIRMING" := (Option.some.inj hnext).symm
    subst hn
    exact ⟨_, rfl, rfl, rfl⟩
  by_cases h4 : step = "RESOURCE_CONFIRMING"
  · subst h4
    have h0 : nextStepOf "RESOURCE_CONFIRMING" = none := by decide
    rw [h0] at hnext
    exact Option.noConfusion hnext
  · have h0 : nextStepOf step = none := by
      simp [nextStepOf, findStepIndex, EVENT_REQUEST_REVIEW_STEPS,
        Ne.symm h1, Ne.symm h2, Ne.symm h3, Ne.symm h4]
    rw [h0] at hnext
    exact Option.noConfusion hnext

/-- Witness for C2: approving a PENDING request at FINANCIAL_MANAGER
advances it to ADMINISTRATION_MANAGER. -/
theorem review_approve_with_successor_advances_witness :
    ∃ w, reviewEventRequestAction
        (some ⟨"PENDING", some "FINANCIAL_MANAGER", none, none, none, none⟩)
        "FINANCIAL_MANAGER" "APPROVE" none = ⟨true, none, some w⟩
      ∧ w.status = "PENDING" ∧ w.review_step = some "ADMINISTRATION_MANAGER" :=
  review_approve_with_successor_advances
    ⟨"PENDING", some "FINANCIAL_MANAGER", none, none, none, none⟩
    "FINANCIAL_MANAGER" "ADMINISTRATION_MANAGER" none rfl rfl (by decide)

/-- C4: the review action fails without issuing any update when a
precondition fails: a persisted status other than PENDING (any of the
other four statuses of the data model) yields the not-pending error, and
a persisted review step (null or any recognised step key) different from
the step argument yields the step-mismatch error. -/
theorem review_precondition_failure_no_write
    (row : EventRequestRow) (step decision : String) (fb : Option String) :
    (row.status ∈ ["DRAFT", "REJECTED", "APPROVED", "OPEN"] →
      reviewEventRequestAction (some row) step decision fb =
        ⟨false, some "Event request is not pending review.", none⟩)
    ∧ (row.status = "PENDING" →
      (row.review_step = none ∨ ∃ k ∈ stepKeys, row.review_step = some k) →
      row.review_step ≠ some step →
      reviewEventRequestAction (some row) step decision fb =
        ⟨false, some "Review step mismatch. Refresh and try again.", none⟩) := by
  constructor
  · intro hmem
    have hdis : row.status = "DRAFT" ∨ row.status = "REJECTED"
        ∨ row.status = "APPROVED" ∨ row.status = "OPEN" := by simpa using hmem
    have hns : normalizeStatus (StoredValue.str row.status) ≠ "PENDING" := by
      rcases hdis with h | h | h | h <;> rw [h] <;> decide
    exact reviewEventRequestAction_of_failure _ _ _ _ _
      (reviewCheckPhase_not_pending row step decision fb hns)
  · intro hp hdom hne
    have hps : normalizeStatus (StoredValue.str row.status) = "PENDING" := by
      rw [hp]; decide
    have hms : normalizeReviewStep (toStored row.review_step) ≠ some step := by
      rcases hdom with h0 | ⟨k, hk, he⟩
      · rw [h0]; simp [toStored, normalizeReviewStep]
      · rw [he] at hne ⊢
        have hid : normalizeReviewStep (toStored (some k)) = some k := by
          simp [toStored, normalizeReviewStep, hk]
        rw [hid]
        intro hcontra
        exact hne (by rw [Option.some.inj hcontra])
    exact reviewEventRequestAction_of_failure _ _ _ _ _
      (reviewCheckPhase_mismatch row step decision fb hps hms)

/-- Witness for C4: a REJECTED request yields the not-pending error, and
a PENDING request at ADMINISTRATION_MANAGER reviewed with step argument
FINANCIAL_MANAGER yields the step-mismatch error; neither issues a
write. -/
theorem review_precondition_failure_no_write_witness :
    reviewEventRequestAction (some ⟨"REJECTED", none, none, none, none, none⟩)
        "FINANCIAL_MANAGER" "APPROVE" none =
      ⟨false, some "Event request is not pending review.", none⟩
    ∧ reviewEventRequestAction
        (some ⟨"PENDING", some "ADMINISTRATION_MANAGER", none, none, none, none⟩)
        "FINANCIAL_MANAGER" "APPROVE" none =
      ⟨false, some "Review step mismatch. Refresh and try again.", none⟩ :=
  ⟨(review_precondition_failure_no_write
      ⟨"REJECTED", none, none, none, none, none⟩ "FINANCIAL_MANAGER" "APPROVE" none).1
      (by decide),
   (review_precondition_failure_no_write
      ⟨"PENDING", some "ADMINISTRATION_MANAGER", none, none, none, none⟩
      "FINANCIAL_MANAGER" "APPROVE" none).2 rfl (by decide) (by decide)⟩

/-- C5: `normalizeStatus` only ever returns one of the four recognised
statuses — never APPROVED: every non-string value and every string whose
uppercase form is not among DRAFT, PENDING, REJECTED, OPEN yields DRAFT;
in particular a stored APPROVED is surfaced as DRAFT, so the record
mapping and the listing action never produce a record with status
APPROVED. -/
theorem normalizeStatus_never_approved :
    (∀ v : StoredValue, normalizeStatus v ∈ EVENT_REQUEST_STATUSES)
    ∧ normalizeStatus StoredValue.nonString = "DRAFT"
    ∧ (∀ s : String,
        jsToUpperCase s ∉ EVENT_REQUEST_STATUSES →
          normalizeStatus (StoredValue.str s) = "DRAFT")
    ∧ normalizeStatus (StoredValue.str "APPROVED") = "DRAFT"
    ∧ (∀ row : RawEventRequestRow, (mapEventRequestRow row).status ≠ "APPROVED")
    ∧ (∀ rows : List RawEventRequestRow,
        ∀ r ∈ listEventRequestsData rows, r.status ≠ "APPROVED") := by
  have hmem : ∀ v : StoredValue, normalizeStatus v ∈ EVENT_REQUEST_STATUSES := by
    intro v
    cases v with
    | nonString => decide
    | str s =>
      by_cases h : jsToUpperCase s = "DRAFT" ∨ jsToUpperCase s = "PENDING"
          ∨ jsToUpperCase s = "REJECTED" ∨ jsToUpperCase s = "OPEN"
      · have hv : normalizeStatus (StoredValue.str s) = jsToUpperCase s := by
          simp [normalizeStatus, h]
        rw [hv]
        rcases h with h | h | h | h <;> rw [h] <;> decide
      · have hv : normalizeStatus (StoredValue.str s) = "DRAFT" := by
          simp [normalizeStatus, h]
        rw [hv]; decide
  have hrow : ∀ row : RawEventRequestRow, (mapEventRequestRow row).status ≠ "APPROVED" := by
    intro row hcontra
    have hst : (mapEventRequestRow row).status = normalizeStatus row.status := rfl
    rw [hst] at hcontra
    have hin := hmem row.status
    rw [hcontra] at hin
    exact absurd hin (by decide)
  refine ⟨hmem, by decide, ?_, by decide, hrow, ?_⟩
  · intro s hnot
    have h : ¬ (jsToUpperCase s = "DRAFT" ∨ jsToUpperCase s = "PENDING"
        ∨ jsToUpperCase s = "REJECTED" ∨ jsToUpperCase s = "OPEN") := by
      intro hor
      exact hnot (by rcases hor with h | h | h | h <;> rw [h] <;> decide)
    simp [normalizeStatus, h]
  · intro rows r hr
    rcases List.mem_map.mp hr with ⟨raw, _, rfl⟩
    exact hrow raw

/-- Witness for C5: the lowercase string "approved" is normalised to
DRAFT, and a raw row persisted with status APPROVED is mapped to a
record whose status is not APPROVED. -/
theorem normalizeStatus_never_approved_witness :
    normalizeStatus (StoredValue.str "approved") = "DRAFT"
    ∧ (mapEventRequestRow
        ⟨7, 1, RelationValue.obj 1, "CONFERENCE", StoredValue.str "APPROVED",
          "2025-01-01", "2025-01-02", none, none, none, "u1",
          RelationValue.null, "2024-12-31"⟩).status ≠ "APPROVED" :=
  ⟨normalizeStatus_never_approved.2.2.1 "approved" (by decide),
   normalizeStatus_never_approved.2.2.2.2.1 _⟩

/-- Counterexample for C8: reviewing a PENDING request at
FINANCIAL_MANAGER with the unrecognised step argument SOME_UNKNOWN_STEP
fails with the step-mismatch error, not the invalid-review-step error
the claim names — the invalid-step branch is unreachable because the
normalised persisted step is always a recognised key or null, never an
unrecognised string. -/
theorem invalid_step_claim_counterexample :
    "SOME_UNKNOWN_STEP" ∉ stepKeys
    ∧ reviewEventRequestAction
        (some ⟨"PENDING", some "FINANCIAL_MANAGER", none, none, none, none⟩)
        "SOME_UNKNOWN_STEP" "APPROVE" none =
      ⟨false, some "Review step mismatch. Refresh and try again.", none⟩
    ∧ "Review step mismatch. Refresh and try again." ≠ "Invalid review step provided." := by
  decide

/-- C8 (amended): for every call on a PENDING row whose step argument is
not a recognised member of the ordered step sequence, the review action
fails and performs no write — but with the step-mismatch error rather
than the invalid-review-step error. -/
theorem unrecognized_step_fails_with_step_mismatch
    (row : EventRequestRow) (step decision : String) (fb : Option String)
    (hstatus : row.status = "PENDING") (hstep : step ∉ stepKeys) :
    reviewEventRequestAction (some row) step decision fb =
      ⟨false, some "Review step mismatch. Refresh and try again.", none⟩ := by
  have hp : normalizeStatus (StoredValue.str row.status) = "PENDING" := by
    rw [hstatus]; decide
  have hm : normalizeReviewStep (toStored row.review_step) ≠ some step := by
    intro hcontra
    exact hstep (normalizeReviewStep_valid _ _ hcontra)
  exact reviewEventRequestAction_of_failure _ _ _ _ _
    (reviewCheckPhase_mismatch row step decision fb hp hm)

/-- Witness for the amended C8: an unrecognised step argument on a
PENDING request at CUSTOMER_MEETING fails with the step-mismatch error
and no write. -/
theorem unrecognized_step_fails_with_step_mismatch_witness :
    reviewEventRequestAction
        (some ⟨"PENDING", some "CUSTOMER_MEETING", none, none, none, none⟩)
        "NOT_A_STEP" "REJECT" none =
      ⟨false, some "Review step mismatch. Refresh and try again.", none⟩ :=
  unrecognized_step_fails_with_step_mismatch
    ⟨"PENDING", some "CUSTOMER_MEETING", none, none, none, none⟩
    "NOT_A_STEP" "REJECT" none rfl (by decide)

/-- C9: every workflow operation stores the trimmed feedback text and
stores null (never the empty string) for empty or whitespace-only input:
the status-update action (submit-for-review and reject-draft) writes
`trimFeedback` into `scso_feedback`; `trimFeedback` maps
whitespace-only strings to null and otherwise produces exactly the
trimmed, non-empty text; and a successful review at FINANCIAL_MANAGER
writes `trimFeedback` into the step's feedback column for either
decision. -/
theorem workflow_feedback_trimmed_empty_as_null :
    (∀ (row : EventRequestRow) (ns : String) (fb : Option String),
        (updateEventRequestStatusAction row ns fb).scso_feedback = trimFeedback fb)
    ∧ (∀ s : String, jsTrim s = "" → trimFeedback (some s) = none)
    ∧ (∀ s t : String, trimFeedback (some s) = some t → t = jsTrim s ∧ t ≠ "")
    ∧ (∀ (row : EventRequestRow) (decision : String) (fb : Option String),
        row.status = "PENDING" → row.review_step = some "FINANCIAL_MANAGER" →
        ∃ w, reviewEventRequestAction (some row) "FINANCIAL_MANAGER" decision fb =
            ⟨true, none, some w⟩
          ∧ w.financial_manager_feedback = trimFeedback fb) := by
  refine ⟨?_, ?_, ?_, ?_⟩
  · intro row ns fb
    by_cases h : ns = "PENDING" <;> simp [updateEventRequestStatusAction, h]
  · intro s h
    simp [trimFeedback, h]
  · intro s t h
    by_cases he : jsTrim s = ""
    · simp [trimFeedback, he] at h
    · have ht : jsTrim s = t := by simpa [trimFeedback, he] using h
      exact ⟨ht.symm, ht ▸ he⟩
  · intro row decision fb hstatus hstep
    obtain ⟨rst, rrs, f1, f2, f3, f4⟩ := row
    dsimp only at hstatus hstep
    subst hstatus; subst hstep
    by_cases hd : decision = "REJECT"
    · subst hd
      exact ⟨_, rfl, rfl⟩
    · have e1 : normalizeStatus (StoredValue.str "PENDING") = "PENDING" := by decide
      have e2 : normalizeReviewStep (toStored (some "FINANCIAL_MANAGER"))
          = some "FINANCIAL_MANAGER" := by decide
      have e3 : findStepIndex "FINANCIAL_MANAGER" EVENT_REQUEST_REVIEW_STEPS = some 0 := by
        decide
      have e4 : (EVENT_REQUEST_REVIEW_STEPS.get? 1).map (fun e => e.key)
          = some "ADMINISTRATION_MANAGER" := by decide
      have e5 : EVENT_REQUEST_REVIEW_STEPS.length = 4 := rfl
      have e6 : FEEDBACK_COLUMN_BY_STEP "FINANCIAL_MANAGER"
          = some "financial_manager_feedback" := rfl
      have hc : reviewCheckPhase ⟨"PENDING", some "FINANCIAL_MANAGER", f1, f2, f3, f4⟩
          "FINANCIAL_MANAGER" decision fb
          = CheckOutcome.proceed "PENDING" (some "ADMINISTRATION_MANAGER")
              (some "financial_manager_feedback") (trimFeedback fb) := by
        simp [reviewCheckPhase, e1, e2, e3, e4, e5, e6, hd]
        rfl
      refine ⟨applyReviewWrite ⟨"PENDING", some "FINANCIAL_MANAGER", f1, f2, f3, f4⟩
        "PENDING" (some "ADMINISTRATION_MANAGER") (some "financial_manager_feedback")
        (trimFeedback fb), ?_, rfl⟩
      simp [reviewEventRequestAction, hc]

/-- Witness for C9: whitespace-only feedback is stored as null, and the
feedback " fine " supplied to an approval at FINANCIAL_MANAGER is stored
trimmed in the step's feedback column. -/
theorem workflow_feedback_trimmed_empty_as_null_witness :
    trimFeedback (some "   ") = none
    ∧ (∃ w, reviewEventRequestAction
          (some ⟨"PENDING", some "FINANCIAL_MANAGER", none, none, none, none⟩)
          "FINANCIAL_MANAGER" "APPROVE" (some " fine ") = ⟨true, none, some w⟩
        ∧ w.financial_manager_feedback = trimFeedback (some " fine ")) :=
  ⟨workflow_feedback_trimmed_empty_as_null.2.1 "   " (by decide),
   workflow_feedback_trimmed_empty_as_null.2.2.2
     ⟨"PENDING", some "FINANCIAL_MANAGER", none, none, none, none⟩
     "APPROVE" (some " fine ") rfl rfl⟩

end SepPortal
